import Mathlib

/-!
Verification development for the GIS-portal scraper
(`src/agroforestry/scraping/gis_scraper.js`).

The JavaScript source is shallowly embedded: pure computations become Lean
functions, browser-driven operations are parametrised by an environment
recording the outcome of each await-point (success value or thrown error),
and exceptions are modelled with `Except`.
-/

namespace GisScraper

/-- Errors thrown by the browser-automation surface (timeouts, protocol
errors).  The scraper never inspects an error's content, so a small
enumeration suffices. -/
inductive JsError where
  | timeout
  | protocolError
  deriving DecidableEq, Repr

/-- JavaScript `String.prototype.includes`: substring containment, decided
by checking the pattern against every suffix. -/
def jsIncludes (s pat : String) : Bool :=
  s.toList.tails.any (fun t => pat.toList.isPrefixOf t)

/-- JavaScript `s || d` where `s` may be `undefined` (modelled `none`) or an
empty string: both are falsy, yielding the default `d`. -/
def jsOrStr (s : Option String) (d : String) : String :=
  match s with
  | some v => if v = "" then d else v
  | none => d

/-- JavaScript `String.prototype.replace` with a string pattern: replaces
only the first occurrence; an absent pattern leaves the string unchanged. -/
def replaceFirstList (pat repl : List Char) : List Char → List Char
  | [] => if pat = [] then repl else []
  | c :: cs =>
    if pat.isPrefixOf (c :: cs) then repl ++ (c :: cs).drop pat.length
    else c :: replaceFirstList pat repl cs

/-- `String.prototype.replace` (first occurrence only), on `String`. -/
def jsReplaceFirst (s pat repl : String) : String :=
  ⟨replaceFirstList pat.toList repl.toList s.toList⟩

/-! ### JavaScript numbers

The quantities the scraper computes (parsed integers, a page size, a click
budget) are exact in IEEE doubles at realistic magnitudes, so finite values
are modelled as rationals; `Infinity`, `-Infinity` and `NaN` get their own
constructors because `Math.ceil(total / 0)` genuinely arises from a
degenerate count string. -/

inductive JsNum where
  | num (z : ℤ)
  | posInf
  | negInf
  | nan
  deriving DecidableEq, Repr

/-- `Math.ceil(a / b)` for integer operands, fused into one operation:
the quotient is exact in doubles at these magnitudes and its ceiling is
again an integer (`⌈a/b⌉ = -⌊-a/b⌋`, with `Int.fdiv` as floor division);
division by (positive) zero follows IEEE — `Infinity` on a positive
numerator, `NaN` on `0 / 0`. -/
def jsCeilDiv (a b : ℤ) : JsNum :=
  if b = 0 then (if a = 0 then .nan else if 0 < a then .posInf else .negInf)
  else .num (-((-a).fdiv b))

/-- JavaScript subtraction of a finite constant. -/
def jsSubNum (x : JsNum) (c : ℤ) : JsNum :=
  match x with
  | .num z => .num (z - c)
  | .posInf => .posInf
  | .negInf => .negInf
  | .nan => .nan

/-- The loop guard `i < x` for a JavaScript number `x` and a loop counter
`i` (a non-negative integer).  Comparisons against `NaN` are false. -/
def natLtJs (i : ℕ) (x : JsNum) : Bool :=
  match x with
  | .num z => (i : ℤ) < z
  | .posInf => true
  | .negInf => false
  | .nan => false

/-! ### The results-count pattern

`resultText.match(/(\d+)\s*-\s*(\d+)\s*of\s*(\d+)/)` searches for the first
position at which the pattern matches.  Because a digit can never satisfy
`\s` or the literals `-`/`of`, the greedy quantifiers need no backtracking:
trying each start position from the left with maximal `\d+`/`\s*` runs is
exactly the JavaScript semantics for this pattern. -/

/-- `\d` — JavaScript digit class (ASCII `0`-`9`). -/
def isJsDigit (c : Char) : Bool := '0' ≤ c ∧ c ≤ '9'

/-- `\s` — the whitespace characters a count string can realistically
contain (ASCII whitespace plus no-break space). -/
def isJsSpace (c : Char) : Bool :=
  c = ' ' ∨ c = '\t' ∨ c = '\n' ∨ c = '\r' ∨ c = '\x0b' ∨ c = '\x0c' ∨ c = ' '

/-- Greedy `\d+` followed by `parseInt`: consumes a maximal nonempty digit
run and returns its decimal value with the rest of the input. -/
def takeDigits : List Char → ℕ → ℕ × List Char
  | c :: cs, acc =>
    if isJsDigit c then takeDigits cs (acc * 10 + (c.toNat - '0'.toNat))
    else (acc, c :: cs)
  | [], acc => (acc, [])

/-- `\d+` with at-least-one-digit requirement. -/
def digitsGroup (cs : List Char) : Option (ℕ × List Char) :=
  match cs with
  | c :: _ => if isJsDigit c then some (takeDigits cs 0) else none
  | [] => none

/-- Greedy `\s*`. -/
def skipSpaces : List Char → List Char
  | c :: cs => if isJsSpace c then skipSpaces cs else c :: cs
  | [] => []

/-- JavaScript `String.prototype.trim`: strip whitespace from both ends. -/
def jsTrim (s : String) : String :=
  ⟨(skipSpaces (skipSpaces s.toList).reverse).reverse⟩

/-- Attempt the whole pattern `(\d+)\s*-\s*(\d+)\s*of\s*(\d+)` at the
current position. -/
def matchCountAt (cs : List Char) : Option (ℕ × ℕ × ℕ) := do
  let (a, cs) ← digitsGroup cs
  let cs := skipSpaces cs
  match cs with
  | '-' :: cs =>
    let cs := skipSpaces cs
    let (b, cs) ← digitsGroup cs
    let cs := skipSpaces cs
    match cs with
    | 'o' :: 'f' :: cs =>
      let cs := skipSpaces cs
      let (c, _) ← digitsGroup cs
      pure (a, b, c)
    | _ => none
  | _ => none

/-- Unanchored regex search: try the pattern at each position from the
left, returning the first match's capture values. -/
def searchCount : List Char → Option (ℕ × ℕ × ℕ)
  | [] => none
  | c :: cs =>
    match matchCountAt (c :: cs) with
    | some r => some r
    | none => searchCount cs

/-- The parsed Result Count triple of a results-count string, when the
pattern matches. -/
def parseCount (s : String) : Option (ℕ × ℕ × ℕ) :=
  searchCount s.toList

/-- `resultsPerPage` as the code computes it from a match:
`parseInt(matches[2]) - parseInt(matches[1]) + 1`. -/
def pageSizeOf (a b : ℕ) : ℤ :=
  (b : ℤ) - (a : ℤ) + 1

/-- `clicksNeeded` as the code computes it:
`Math.ceil(totalResults / resultsPerPage) - 1` on a match, `0` otherwise. -/
def clicksNeededOfText (s : String) : JsNum :=
  match parseCount s with
  | some (a, b, c) => jsSubNum (jsCeilDiv (c : ℤ) (pageSizeOf a b)) 1
  | none => .num 0

/-! ### DOM elements and the shadow-piercing resolver

An element handle carries the observable data the scraper reads
(`textContent`, `href`) and, when present, a shadow root.  A shadow root is
modelled as an association list from selector strings to the element
`querySelector` would return for that selector (`none` entries are simply
absent).  `el.shadowRoot?.querySelector(sel)` is `none` both when the
shadow root is missing and when the query misses, exactly as the optional
chain collapses both to a falsy value. -/

structure ElemData where
  text : String := ""
  href : String := ""
  deriving Repr

inductive Elem : Type where
  | node : ElemData → Option (List (String × Elem)) → Elem

/-- The element's observable data. -/
def Elem.data : Elem → ElemData
  | .node d _ => d

/-- The element's shadow root, when attached. -/
def Elem.shadow : Elem → Option (List (String × Elem))
  | .node _ s => s

def Elem.text (e : Elem) : String := e.data.text

def Elem.href (e : Elem) : String := e.data.href

/-- `el.shadowRoot?.querySelector(sel)` — descend into the shadow root (if
any) and apply one selector. -/
def shadowQuery (e : Elem) (sel : String) : Option Elem :=
  match e.shadow with
  | none => none
  | some entries => (entries.find? (fun p => p.1 == sel)).map (·.2)

/-- `queryShadowDom(parentHandle, path, finalSelector)` — walk the
intermediate shadow-host selectors, short-circuiting to `null` when a step
misses, then apply the terminal selector through one more shadow root. -/
def queryShadowDom (parentHandle : Elem) (path : List String) (finalSelector : String) :
    Option Elem :=
  match path with
  | [] => shadowQuery parentHandle finalSelector
  | sel :: rest =>
    match shadowQuery parentHandle sel with
    | none => none
    | some nextHandle => queryShadowDom nextHandle rest finalSelector

/-- The intermediate walk of `queryShadowDom` on its own (the state of
`currentHandle` after consuming the whole path). -/
def resolvePath (e : Elem) : List String → Option Elem
  | [] => some e
  | sel :: rest =>
    match shadowQuery e sel with
    | none => none
    | some nextHandle => resolvePath nextHandle rest

/-- `queryShadowDom` instrumented with the list of selectors that were
actually handed to `querySelector`, in evaluation order. -/
def queryShadowDomTrace (e : Elem) (path : List String) (finalSelector : String) :
    Option Elem × List String :=
  match path with
  | [] => (shadowQuery e finalSelector, [finalSelector])
  | sel :: rest =>
    match shadowQuery e sel with
    | none => (none, [sel])
    | some nextHandle =>
      let (r, t) := queryShadowDomTrace nextHandle rest finalSelector
      (r, sel :: t)

/-! ### Locator configuration -/

/-- A locator descriptor: intermediate shadow-host selectors plus a
terminal selector. -/
structure Locator where
  path : List String
  query : String

/-- The details-page sub-bag (`selectors.details_page`).  Only the match
token feeds the extraction logic; the xpath/selector strings merely name
the elements whose resolution outcomes the environment records. -/
structure DetailsSelectors where
  info_button_xpath : String := ""
  details_link_xpath : String := ""
  api_resources_button : String := ""
  api_container_xpath : String := ""
  api_input_selector : String := ""
  api_input_value_match : String
  fallback_api_selector : String := ""

/-- The selector bag of a flattened source record, as the pipeline reads
it (`source.selectors`). -/
structure Selectors where
  catalog_container : String
  gallery_card : Locator
  more_results_button : Locator
  results_count : Locator
  card_url : Locator
  details_page : DetailsSelectors

/-- The fields of a flattened source record that the scraping pipeline
reads. -/
structure Src where
  id : String
  search_term : String
  origin_url : String
  imported : Bool
  selectors : Selectors

/-! ### Pagination driver (`loadAllResults`)

The page mutates as "More results" is clicked, so the environment supplies
the catalog element as a function of the number of clicks performed so
far.  `page.waitForFunction` is an opaque bounded wait whose outcome
(condition met, or timeout thrown) the environment records. -/

structure PageEnv where
  /-- Outcome of the `waitForFunction` guard on the results-count text. -/
  waitCountOk : Except JsError Unit
  /-- Catalog element after `i` "More results" clicks. -/
  catalogAt : ℕ → Elem

/-- The click loop of `loadAllResults`: `for (let i = 0; i < clicksNeeded;
i++)`, re-resolving the "More results" control each iteration and stopping
early when it is absent.  Returns the number of clicks performed from loop
counter `i` on; `fuel` bounds the iterations so the function is total even
for an infinite budget. -/
def clickLoop (env : PageEnv) (sel : Selectors) (budget : JsNum) :
    ℕ → ℕ → ℕ
  | 0, _ => 0
  | fuel + 1, i =>
    if natLtJs i budget then
      match queryShadowDom (env.catalogAt i) sel.more_results_button.path
          sel.more_results_button.query with
      | some _ => clickLoop env sel budget fuel (i + 1) + 1
      | none => 0
    else 0

/-- `loadAllResults(page, catalogHandle, source)`, instrumented to report
the number of "More results" activations performed.  The `waitForFunction`
guard throws on timeout (uncaught here); an unresolvable results-count
element returns with zero activations. -/
def loadAllResults (env : PageEnv) (sel : Selectors) (fuel : ℕ) :
    Except JsError ℕ :=
  match env.waitCountOk with
  | .error e => .error e
  | .ok _ =>
    match queryShadowDom (env.catalogAt 0) sel.results_count.path
        sel.results_count.query with
    | none => .ok 0
    | some resultHandle =>
      .ok (clickLoop env sel (clicksNeededOfText resultHandle.text) fuel 0)

/-! ### Card locator and link extractor -/

/-- `findCardOnPage(catalogHandle, source)`: substitute the search term
into the terminal selector template, then resolve. -/
def findCardOnPage (catalogHandle : Elem) (source : Src) : Option Elem :=
  let finalQuery :=
    jsReplaceFirst source.selectors.gallery_card.query "{SEARCH_TERM}" source.search_term
  queryShadowDom catalogHandle source.selectors.gallery_card.path finalQuery

/-- `extractUrlFromCard(cardHandle, source)`: resolve the `card_url`
locator within the card and read the link's `href`. -/
def extractUrlFromCard (cardHandle : Elem) (source : Src) : Option String :=
  (queryShadowDom cardHandle source.selectors.card_url.path
    source.selectors.card_url.query).map Elem.href

/-! ### Stage 1 (`findAndScrapeUrl`) -/

structure Stage1Env where
  /-- Outcome of `page.goto(source.origin_url, ...)`. -/
  gotoOrigin : Except JsError Unit
  /-- Outcome of `page.waitForSelector(source.selectors.catalog_container)`. -/
  catalogWait : Except JsError Unit
  /-- Pagination environment (shared catalog state, indexed by clicks). -/
  pageEnv : PageEnv

/-- `findAndScrapeUrl(page, source)`, instrumented with the number of card
lookups and pagination-driver invocations performed.  Exceptions from
navigation, the container wait, or the pagination wait propagate (there is
no `try` in this function). -/
def findAndScrapeUrl (env : Stage1Env) (source : Src) (fuel : ℕ) :
    Except JsError (Option String) × ℕ × ℕ :=
  match env.gotoOrigin with
  | .error e => (.error e, 0, 0)
  | .ok _ =>
    match env.catalogWait with
    | .error e => (.error e, 0, 0)
    | .ok _ =>
      match findCardOnPage (env.pageEnv.catalogAt 0) source with
      | some cardHandle => (.ok (extractUrlFromCard cardHandle source), 1, 0)
      | none =>
        match loadAllResults env.pageEnv source.selectors fuel with
        | .error e => (.error e, 1, 1)
        | .ok k =>
          match findCardOnPage (env.pageEnv.catalogAt k) source with
          | some cardHandle => (.ok (extractUrlFromCard cardHandle source), 2, 1)
          | none => (.ok none, 2, 1)

/-! ### Stage 2 (`scrapeApiUrlFromDetailsPage`)

The environment records the outcome of each await-point.  The initial
`page.goto` stands *before* the function's `try` block, so its exception
propagates to the caller; everything inside the `try` is converted to the
final `return null`, except the fallback branch's `return
dataSourceLink.evaluate(el => el.href)`, which returns a promise without
awaiting it, so a rejection there bypasses the `catch` as well. -/

/-- One candidate input widget of the API-resources panel: the raw label
text reached through its shadow root (absent when the chain breaks) and
the raw `el.value` (absent when undefined). -/
structure InputWidget where
  labelText : Option String
  value : Option String

/-- The `(label, value)` pair the in-browser `evaluate` collects, with the
sentinel defaults of the source (`|| 'LABEL NOT FOUND'`,
`|| 'VALUE NOT FOUND'`). -/
def collectData (w : InputWidget) : String × String :=
  (jsOrStr (w.labelText.map jsTrim) "LABEL NOT FOUND",
   jsOrStr w.value "VALUE NOT FOUND")

structure DetailsEnv where
  /-- Outcome of `page.goto(detailsUrl, ...)` (60 s timeout). -/
  gotoDetails : Except JsError Unit
  /-- `page.url()` after navigation. -/
  landedUrl : String
  /-- `waitForSelector` on the info-button xpath. -/
  infoButtonWait : Except JsError Unit
  /-- `infoButton.evaluate(el => el.className.includes('active'))` — the
  class string inspected. -/
  infoButtonClassName : Except JsError String
  /-- `infoButton.click()`. -/
  infoClick : Except JsError Unit
  /-- `waitForSelector` on the full-details-link xpath. -/
  detailsLinkWait : Except JsError Unit
  /-- `fullDetailsLink.evaluate(el => el.click())`. -/
  detailsLinkClick : Except JsError Unit
  /-- `waitForSelector(api_resources_button, { timeout: 15000 })`. -/
  apiButtonWait : Except JsError Unit
  /-- `apiResourcesButton.evaluate(el => el.click())`. -/
  apiButtonClick : Except JsError Unit
  /-- `waitForSelector` on the api-container xpath. -/
  apiContainerWait : Except JsError Unit
  /-- `containerHandle.$$(api_input_selector)` plus the per-input
  `evaluate` calls collecting label/value data. -/
  candidateInputs : Except JsError (List InputWidget)
  /-- `page.$(fallback_api_selector)` — whether a link handle was found. -/
  fallbackLink : Except JsError Bool
  /-- `dataSourceLink.evaluate(el => el.href)`. -/
  fallbackHref : Except JsError String

/-- The `/explore` side-panel workflow: activate the info toggle only when
not already active, then trigger the full-details load.  Runs inside the
outer `try`. -/
def exploreStep (env : DetailsEnv) : Except JsError Unit :=
  if jsIncludes env.landedUrl "/explore" then do
    let _ ← env.infoButtonWait
    let cls ← env.infoButtonClassName
    let _ ← (if jsIncludes cls "active" then pure () else env.infoClick)
    let _ ← env.detailsLinkWait
    env.detailsLinkClick
  else pure ()

/-- The primary strategy (the inner `try` body): open the API-resources
panel, enumerate the candidate inputs, and pick the first whose collected
value contains the configured match token. -/
def primaryStrategy (env : DetailsEnv) (sel : DetailsSelectors) :
    Except JsError (Option String) := do
  let _ ← env.apiButtonWait
  let _ ← env.apiButtonClick
  let _ ← env.apiContainerWait
  let inputs ← env.candidateInputs
  let foundData := inputs.map collectData
  pure (((foundData.find? (fun d => jsIncludes d.2 sel.api_input_value_match)).map (·.2)))

/-- `scrapeApiUrlFromDetailsPage(page, detailsUrl, source)`. -/
def scrapeApiUrlFromDetailsPage (env : DetailsEnv) (sel : Selectors) :
    Except JsError (Option String) :=
  match env.gotoDetails with
  | .error e => .error e
  | .ok _ =>
    match exploreStep env with
    | .error _ => .ok none
    | .ok _ =>
      match primaryStrategy env sel.details_page with
      | .ok (some v) => .ok (some v)
      | _ =>
        match env.fallbackLink with
        | .error _ => .ok none
        | .ok false => .ok none
        | .ok true =>
          match env.fallbackHref with
          | .ok h => .ok (some h)
          | .error e => .error e

/-! ### The batch loop (`main`)

`main` wraps configuration loading *and the entire per-dataset loop* in a
single `try`/`catch`; the model records which datasets had their scraping
attempted, which `(id, apiUrl)` pairs were handed to the persistence
writer, and whether the catch block was entered (aborting the loop). -/

structure DatasetEnv where
  s1 : Stage1Env
  det : DetailsEnv

structure MainEnv where
  /-- Reading and parsing `./data/sources.json` and flattening it. -/
  configLoad : Except JsError (List Src)
  /-- `puppeteer.launch` / `browser.newPage()` for the `i`-th descriptor. -/
  launch : ℕ → Except JsError Unit
  /-- Per-descriptor browser outcomes. -/
  denv : ℕ → DatasetEnv

structure MainResult where
  /-- Ids of descriptors whose scraping was started (skip rule excluded). -/
  attempted : List String
  /-- `(id, apiUrl)` pairs handed to `saveUrlToJson`. -/
  saved : List (String × String)
  /-- Whether `main`'s catch block was entered, ending the loop. -/
  aborted : Bool
  deriving DecidableEq, Repr

/-- The `for (const source of sourcesToScrape)` loop of `main`.  A thrown
exception anywhere in an iteration lands in the surrounding catch: the
remaining descriptors are never processed. -/
def mainLoop (env : MainEnv) (fuel : ℕ) : List Src → ℕ → MainResult
  | [], _ => ⟨[], [], false⟩
  | source :: rest, i =>
    if source.imported then mainLoop env fuel rest (i + 1)
    else
      match env.launch i with
      | .error _ => ⟨[], [], true⟩
      | .ok _ =>
        match (findAndScrapeUrl (env.denv i).s1 source fuel).1 with
        | .error _ => ⟨[source.id], [], true⟩
        | .ok detailsUrl =>
          match detailsUrl with
          | some u =>
            if u = "" then
              let r := mainLoop env fuel rest (i + 1)
              ⟨source.id :: r.attempted, r.saved, r.aborted⟩
            else
              match scrapeApiUrlFromDetailsPage (env.denv i).det source.selectors with
              | .error _ => ⟨[source.id], [], true⟩
              | .ok apiUrl =>
                match apiUrl with
                | some api =>
                  if api = "" then
                    let r := mainLoop env fuel rest (i + 1)
                    ⟨source.id :: r.attempted, r.saved, r.aborted⟩
                  else
                    let r := mainLoop env fuel rest (i + 1)
                    ⟨source.id :: r.attempted, (source.id, api) :: r.saved, r.aborted⟩
                | none =>
                  let r := mainLoop env fuel rest (i + 1)
                  ⟨source.id :: r.attempted, r.saved, r.aborted⟩
          | none =>
            let r := mainLoop env fuel rest (i + 1)
            ⟨source.id :: r.attempted, r.saved, r.aborted⟩

/-- `main()`: load and flatten the configuration, then run the loop; a
load failure lands in the same catch and aborts the run before any
descriptor is processed. -/
def mainRun (env : MainEnv) (fuel : ℕ) : MainResult :=
  match env.configLoad with
  | .error _ => ⟨[], [], true⟩
  | .ok sources => mainLoop env fuel sources 0

/-! ### The JSON configuration as data

`processSourceDefinitions` and `saveUrlToJson` manipulate the parsed
configuration as dynamic JavaScript objects.  An object is an association
list of unique keys; setting a property overwrites the first occurrence in
place or appends, and `{...a, ...b}` evaluates its entries left to right
with later writes overriding earlier ones. -/

inductive Val : Type where
  | str (s : String)
  | boolVal (b : Bool)
  | intVal (z : ℤ)
  | obj (fields : List (String × Val))
  | null

/-- A JavaScript object: keyed fields in insertion order. -/
abbrev Obj := List (String × Val)

/-- Property read (`o[k]`): `none` models `undefined`. -/
def getKey (o : Obj) (k : String) : Option Val :=
  (o.find? (fun p => p.1 == k)).map (·.2)

/-- Property write (`o[k] = v`): overwrite in place, else append. -/
def setKey (o : Obj) (k : String) (v : Val) : Obj :=
  match o with
  | [] => [(k, v)]
  | (k0, v0) :: rest =>
    if k0 = k then (k0, v) :: rest else (k0, v0) :: setKey rest k v

/-- Spread `{...o, ...src}`: write each entry of `src` onto `o` in order. -/
def spread (o : Obj) (src : Obj) : Obj :=
  src.foldl (fun acc p => setKey acc p.1 p.2) o

/-- JavaScript template-literal coercion of a property value
(`${baseConfig.base_search_url}`), including the `"undefined"` string for
a missing key. -/
def templateStr : Option Val → String
  | none => "undefined"
  | some (.str s) => s
  | some (.boolVal b) => cond b "true" "false"
  | some (.intVal z) => toString z
  | some .null => "null"
  | some (.obj _) => "[object Object]"

/-- One `categories` entry of a source definition. -/
structure Category where
  category : String
  datasets : List Obj

/-- One `source_definitions` entry. -/
structure SourceDefinition where
  name : Val
  categories : List Category

/-- The parsed `sources.json` shape both functions traverse. -/
structure Config where
  base_config : Option Obj
  source_definitions : List SourceDefinition

/-- The derived origin URL: `` `${baseConfig.base_search_url}${category.category}` ``. -/
def originUrlOf (baseConfig : Obj) (category : String) : String :=
  templateStr (getKey baseConfig "base_search_url") ++ category

/-- The object literal pushed per dataset:
`{ ...baseConfig, name, category, ...dataset, origin_url }`. -/
def flattenRecord (baseConfig : Obj) (defnName : Val) (cat : Category) (dataset : Obj) :
    Obj :=
  setKey
    (spread
      (setKey (setKey (spread [] baseConfig) "name" defnName)
        "category" (.str cat.category))
      dataset)
    "origin_url" (.str (originUrlOf baseConfig cat.category))

/-- `processSourceDefinitions(config)`: flatten definitions × categories ×
datasets into fully-formed source records. -/
def processSourceDefinitions (config : Config) : List Obj :=
  let baseConfig := config.base_config.getD []
  config.source_definitions.flatMap fun definition =>
    definition.categories.flatMap fun category =>
      category.datasets.map fun dataset =>
        flattenRecord baseConfig definition.name category dataset

/-! ### Persistence write-back (`saveUrlToJson`)

The filesystem read/parse/stringify/write are external glue; the modelled
core is the in-memory update between `JSON.parse` and `JSON.stringify`:
find the first dataset whose `id` strictly equals the target, set its
`scraped_url` and `imported`, and report whether anything was updated
(nothing is written, and a warning is logged, when `false`). -/

/-- `d.id === datasetId` — strict equality against a string. -/
def idMatches (d : Obj) (datasetId : String) : Bool :=
  match getKey d "id" with
  | some (.str s) => s == datasetId
  | _ => false

/-- The two property writes on the found dataset. -/
def updateDatasetObj (d : Obj) (apiUrl : String) : Obj :=
  setKey (setKey d "scraped_url" (.str apiUrl)) "imported" (.boolVal true)

/-- `category.datasets.find(...)` plus the in-place mutation: only the
first matching dataset is rewritten. -/
def updateDatasets (datasetId apiUrl : String) : List Obj → List Obj × Bool
  | [] => ([], false)
  | d :: rest =>
    if idMatches d datasetId then (updateDatasetObj d apiUrl :: rest, true)
    else
      let (rest2, f) := updateDatasets datasetId apiUrl rest
      (d :: rest2, f)

/-- The inner category loop with its `break` on success. -/
def updateCategories (datasetId apiUrl : String) : List Category → List Category × Bool
  | [] => ([], false)
  | c :: rest =>
    let (ds, f) := updateDatasets datasetId apiUrl c.datasets
    if f then ({ c with datasets := ds } :: rest, true)
    else
      let (rest2, f2) := updateCategories datasetId apiUrl rest
      (c :: rest2, f2)

/-- The outer definition loop with its `break` on success. -/
def updateDefinitions (datasetId apiUrl : String) :
    List SourceDefinition → List SourceDefinition × Bool
  | [] => ([], false)
  | d :: rest =>
    let (cs, f) := updateCategories datasetId apiUrl d.categories
    if f then ({ d with categories := cs } :: rest, true)
    else
      let (rest2, f2) := updateDefinitions datasetId apiUrl rest
      (d :: rest2, f2)

/-- `saveUrlToJson`'s configuration transformation: the rewritten
configuration and whether a write-back happened. -/
def saveUrlToJson (config : Config) (datasetId apiUrl : String) : Config × Bool :=
  let (defs, updated) := updateDefinitions datasetId apiUrl config.source_definitions
  if updated then ({ config with source_definitions := defs }, true)
  else (config, false)

/-! ## Lemmas about the locator resolver -/

/-- The instrumented resolver computes the same result as the plain one. -/
theorem queryShadowDomTrace_fst (e : Elem) (path : List String) (f : String) :
    (queryShadowDomTrace e path f).1 = queryShadowDom e path f := by
  induction path generalizing e with
  | nil => rfl
  | cons a rest ih =>
    simp only [queryShadowDomTrace, queryShadowDom]
    cases shadowQuery e a with
    | none => rfl
    | some e1 => simpa using ih e1

/-- **C4.** The Locator Resolver short-circuits: when the intermediate
prefix `pre` resolves to some element whose sub-document does not contain
the next selector `s`, the resolver returns not-found, the selectors
evaluated are exactly `pre ++ [s]`, and in particular neither the
remaining intermediate selectors nor the terminal selector are ever
handed to `querySelector`. -/
theorem locator_short_circuit (e e2 : Elem) (pre : List String) (s : String)
    (post : List String) (f : String)
    (hpre : resolvePath e pre = some e2) (hs : shadowQuery e2 s = none) :
    queryShadowDomTrace e (pre ++ s :: post) f = (none, pre ++ [s]) ∧
    queryShadowDom e (pre ++ s :: post) f = none := by
  have htrace : queryShadowDomTrace e (pre ++ s :: post) f = (none, pre ++ [s]) := by
    induction pre generalizing e with
    | nil =>
      simp only [resolvePath, Option.some.injEq] at hpre
      subst hpre
      simp [queryShadowDomTrace, hs]
    | cons a pre ih =>
      simp only [resolvePath] at hpre
      cases ha : shadowQuery e a with
      | none => rw [ha] at hpre; exact absurd hpre (by simp)
      | some e1 =>
        rw [ha] at hpre
        simp only at hpre
        have h2 := ih e1 hpre
        simp only [List.cons_append, queryShadowDomTrace, ha]
        rw [show pre.append (s :: post) = pre ++ s :: post from rfl, h2]
  refine ⟨htrace, ?_⟩
  have := queryShadowDomTrace_fst e (pre ++ s :: post) f
  rw [htrace] at this
  exact this.symm

/-- A leaf element: an attached but empty shadow root. -/
def elemLeaf : Elem := .node {} (some [])

/-- A host whose shadow root holds `elemLeaf` under selector `"a"`. -/
def elemHost : Elem := .node {} (some [("a", elemLeaf)])

theorem locator_short_circuit_witness :
    resolvePath elemHost ["a"] = some elemLeaf ∧
    shadowQuery elemLeaf "b" = none ∧
    queryShadowDomTrace elemHost ["a", "b", "c"] "fin" = (none, ["a", "b"]) ∧
    queryShadowDom elemHost ["a", "b", "c"] "fin" = none :=
  ⟨rfl, rfl,
    (locator_short_circuit elemHost elemLeaf ["a"] "b" ["c"] "fin" rfl rfl).1,
    (locator_short_circuit elemHost elemLeaf ["a"] "b" ["c"] "fin" rfl rfl).2⟩

/-- **C9.** An empty intermediate path applies the terminal selector
directly to the starting element — still descending through the starting
element's own shadow root first, so resolution is not-found when that
shadow root is absent. -/
theorem empty_path_terminal_direct (e : Elem) (f : String) :
    queryShadowDom e [] f = shadowQuery e f ∧
    (e.shadow = none → queryShadowDom e [] f = none) := by
  refine ⟨rfl, fun h => ?_⟩
  simp [queryShadowDom, shadowQuery, h]

/-- An element with no shadow root attached. -/
def elemNoShadow : Elem := .node {} none

theorem empty_path_terminal_direct_witness :
    elemNoShadow.shadow = none ∧
    queryShadowDom elemNoShadow [] "q" = shadowQuery elemNoShadow "q" ∧
    queryShadowDom elemNoShadow [] "q" = none :=
  ⟨rfl, (empty_path_terminal_direct elemNoShadow "q").1,
    (empty_path_terminal_direct elemNoShadow "q").2 rfl⟩

/-! ## The click-budget formula -/

/-- Floor division is invariant under negating both operands (for a
nonzero divisor). -/
theorem fdiv_neg_neg (m n : ℤ) (hn : n ≠ 0) : (-m).fdiv (-n) = m.fdiv n := by
  match m, n with
  | .ofNat 0, n =>
    rw [show Int.ofNat 0 = 0 from rfl, neg_zero, Int.zero_fdiv, Int.zero_fdiv]
  | .ofNat (k+1), .ofNat 0 => exact absurd rfl hn
  | .ofNat (k+1), .ofNat (j+1) => rfl
  | .ofNat (k+1), .negSucc j => rfl
  | .negSucc k, .ofNat 0 => exact absurd rfl hn
  | .negSucc k, .ofNat (j+1) => rfl
  | .negSucc k, .negSucc j => rfl

/-- `Int.fdiv` is the floor of exact rational division (positive divisor). -/
theorem fdiv_eq_floor (m n : ℤ) (hn : 0 < n) :
    m.fdiv n = ⌊(m : ℚ) / (n : ℚ)⌋ := by
  obtain ⟨d, rfl⟩ : ∃ d : ℕ, n = (d : ℤ) := ⟨n.toNat, (Int.toNat_of_nonneg hn.le).symm⟩
  rw [Int.fdiv_eq_ediv _ (Int.natCast_nonneg d), ← Rat.floor_intCast_div_natCast m d]
  norm_cast

/-- The fused `-((-a).fdiv b)` of `jsCeilDiv` is the true ceiling of the
exact quotient, for any nonzero divisor. -/
theorem neg_fdiv_neg_eq_ceil (a b : ℤ) (hb : b ≠ 0) :
    -((-a).fdiv b) = ⌈(a : ℚ) / (b : ℚ)⌉ := by
  rcases lt_or_gt_of_ne hb with hneg | hpos
  · have h1 : (-a).fdiv b = a.fdiv (-b) := by
      have := fdiv_neg_neg a (-b) (by omega)
      rwa [neg_neg] at this
    rw [h1, fdiv_eq_floor a (-b) (by omega)]
    push_cast
    rw [div_neg, Int.floor_neg, neg_neg]
  · rw [fdiv_eq_floor (-a) b hpos]
    push_cast
    rw [neg_div, Int.floor_neg, neg_neg]

/-- **C2 counterexample.** The claim's worked example is wrong on the
code: for `"1 - 12 of 26"` the code computes
`Math.ceil(26 / 12) - 1 = 2`, not `1`. -/
theorem count_example_counterexample :
    parseCount "1 - 12 of 26" = some (1, 12, 26) ∧
    clicksNeededOfText "1 - 12 of 26" = .num 2 ∧
    clicksNeededOfText "1 - 12 of 26" ≠ .num 1 := by
  refine ⟨by decide, by decide, by decide⟩

/-- **C2 (amended).** For every count string matching
`"<a> - <b> of <c>"` with a nonzero page size, the code computes
`pageSize = b - a + 1` and `clicksNeeded = ⌈c / pageSize⌉ - 1` (so
`"1 - 12 of 26"` gives pageSize 12 and clicksNeeded 2); a non-matching
string yields `clicksNeeded = 0` and the driver performs no pagination
and reports success rather than a parse error. -/
theorem pagination_count_contract (s : String) :
    (∀ a b c : ℕ, parseCount s = some (a, b, c) → pageSizeOf a b ≠ 0 →
      clicksNeededOfText s = .num (⌈(c : ℚ) / ((b : ℚ) - (a : ℚ) + 1)⌉ - 1)) ∧
    (parseCount s = none → clicksNeededOfText s = .num 0) ∧
    (∀ (env : PageEnv) (sel : Selectors) (fuel : ℕ) (el : Elem),
      parseCount s = none →
      env.waitCountOk = .ok () →
      queryShadowDom (env.catalogAt 0) sel.results_count.path
        sel.results_count.query = some el →
      el.text = s →
      loadAllResults env sel fuel = .ok 0) := by
  refine ⟨fun a b c h hps => ?_, fun h => ?_, fun env sel fuel el h hw hq ht => ?_⟩
  · rw [clicksNeededOfText, h]
    simp only [jsCeilDiv, if_neg hps, jsSubNum]
    rw [neg_fdiv_neg_eq_ceil (c : ℤ) (pageSizeOf a b) hps]
    have hcast : ((pageSizeOf a b : ℤ) : ℚ) = (b : ℚ) - (a : ℚ) + 1 := by
      rw [pageSizeOf]; push_cast; ring
    rw [hcast]
    norm_cast
  · rw [clicksNeededOfText, h]
  · have hbudget : clicksNeededOfText el.text = .num 0 := by
      rw [clicksNeededOfText, ht, h]
    simp only [loadAllResults, hw, hq, hbudget]
    cases fuel with
    | zero => rfl
    | succ n => simp [clickLoop, natLtJs]

/-- A count element whose text cannot match the pattern. -/
def elemNoMatchCount : Elem := .node { text := "no results" } none

/-- A catalog exposing `elemNoMatchCount` under the `"count"` selector. -/
def catalogNoMatch : Elem := .node {} (some [("count", elemNoMatchCount)])

/-- A selector bag whose `results_count` locator is `[] / "count"`. -/
def wSelectors : Selectors :=
  { catalog_container := "arcgis-hub-catalog"
    gallery_card := ⟨[], "card-\x7bSEARCH_TERM\x7d"⟩
    more_results_button := ⟨[], "more"⟩
    results_count := ⟨[], "count"⟩
    card_url := ⟨[], "a.link"⟩
    details_page := { api_input_value_match := "geojson" } }

/-- A pagination environment whose catalog never changes. -/
def wPageEnvNoMatch : PageEnv :=
  { waitCountOk := .ok (), catalogAt := fun _ => catalogNoMatch }

theorem pagination_count_contract_witness :
    (parseCount "1 - 12 of 26" = some (1, 12, 26) ∧ pageSizeOf 1 12 ≠ 0 ∧
      clicksNeededOfText "1 - 12 of 26" =
        .num (⌈(26 : ℚ) / ((12 : ℚ) - (1 : ℚ) + 1)⌉ - 1)) ∧
    (parseCount "no results" = none ∧ clicksNeededOfText "no results" = .num 0) ∧
    loadAllResults wPageEnvNoMatch wSelectors 5 = .ok 0 :=
  ⟨⟨by decide, by decide,
      (pagination_count_contract "1 - 12 of 26").1 1 12 26 (by decide) (by decide)⟩,
   ⟨by decide, (pagination_count_contract "no results").2.1 (by decide)⟩,
   (pagination_count_contract "no results").2.2 wPageEnvNoMatch wSelectors 5
     elemNoMatchCount (by decide) rfl rfl rfl⟩

/-! ## Lemmas about the click loop -/

/-- A finite budget bounds the loop: starting at counter `i`, the final
counter never passes `max i z`. -/
theorem clickLoop_num_le (env : PageEnv) (sel : Selectors) (z : ℤ) (fuel : ℕ) :
    ∀ i : ℕ, (i : ℤ) + clickLoop env sel (.num z) fuel i ≤ max (i : ℤ) z := by
  induction fuel with
  | zero => intro i; simp [clickLoop, le_max_left]
  | succ fuel ih =>
    intro i
    simp only [clickLoop]
    by_cases h : natLtJs i (.num z)
    · rw [if_pos h]
      have hlt : (i : ℤ) < z := by simpa [natLtJs] using h
      cases queryShadowDom (env.catalogAt i) sel.more_results_button.path
          sel.more_results_button.query with
      | none => simp [le_max_left]
      | some btn =>
        dsimp only
        have hrec := ih (i + 1)
        push_cast at hrec
        rw [max_eq_right (by omega : ((i : ℤ) + 1) ≤ z)] at hrec
        rw [max_eq_right hlt.le]
        push_cast
        omega
    · rw [if_neg h]; simp [le_max_left]

/-- The loop can never click past a state where the "More results" control
is unresolvable. -/
theorem clickLoop_stops_at_missing (env : PageEnv) (sel : Selectors)
    (budget : JsNum) (j : ℕ)
    (hj : queryShadowDom (env.catalogAt j) sel.more_results_button.path
      sel.more_results_button.query = none) (fuel : ℕ) :
    ∀ i : ℕ, i ≤ j → i + clickLoop env sel budget fuel i ≤ j := by
  induction fuel with
  | zero => intro i hij; simpa [clickLoop] using hij
  | succ fuel ih =>
    intro i hij
    simp only [clickLoop]
    by_cases h : natLtJs i budget
    · rw [if_pos h]
      cases hq : queryShadowDom (env.catalogAt i) sel.more_results_button.path
          sel.more_results_button.query with
      | none => simpa using hij
      | some btn =>
        dsimp only
        have hne : i ≠ j := by
          intro he
          rw [he, hj] at hq
          cases hq
        have hrec := ih (i + 1) (by omega)
        omega
    · rw [if_neg h]; simpa using hij

/-- A `NaN` budget performs no iterations. -/
theorem clickLoop_nan (env : PageEnv) (sel : Selectors) (fuel i : ℕ) :
    clickLoop env sel .nan fuel i = 0 := by
  cases fuel <;> simp [clickLoop, natLtJs]

/-- A count string reporting a full range (`"1 - c of c"`) yields a click
budget of `0` — or `NaN` in the degenerate `c = 0` case, which the loop
also treats as zero iterations. -/
theorem clicksNeeded_full_range (s : String) (c : ℕ)
    (h : parseCount s = some (1, c, c)) :
    clicksNeededOfText s = .num 0 ∨ clicksNeededOfText s = .nan := by
  rw [clicksNeededOfText, h]
  dsimp only
  rcases Nat.eq_zero_or_pos c with rfl | hc
  · right; decide
  · left
    have hps : pageSizeOf 1 c = (c : ℤ) := by rw [pageSizeOf]; push_cast; ring
    have hcz : (c : ℤ) ≠ 0 := by exact_mod_cast hc.ne'
    rw [hps]
    simp only [jsCeilDiv, if_neg hcz]
    have hdiv : (-(c : ℤ)).fdiv c = -1 := by
      rw [fdiv_eq_floor _ _ (by exact_mod_cast hc)]
      push_cast
      rw [neg_div, div_self (by exact_mod_cast hc.ne')]
      norm_num
    rw [hdiv]
    simp [jsSubNum]

/-- **C5.** The Pagination Driver never performs more activations than the
computed (non-negative) click budget; it can never click past a state in
which the "More results" control is unresolvable; and when the count
string reports a full range (`"1 - c of c"`), zero activations are
performed. -/
theorem pagination_activation_bounds (env : PageEnv) (sel : Selectors) (fuel : ℕ) :
    (∀ (el : Elem) (z : ℤ) (n : ℕ),
      queryShadowDom (env.catalogAt 0) sel.results_count.path
        sel.results_count.query = some el →
      clicksNeededOfText el.text = .num z →
      loadAllResults env sel fuel = .ok n → (n : ℤ) ≤ max 0 z) ∧
    (∀ (n j : ℕ),
      loadAllResults env sel fuel = .ok n →
      queryShadowDom (env.catalogAt j) sel.more_results_button.path
        sel.more_results_button.query = none →
      n ≤ j) ∧
    (∀ (el : Elem) (c : ℕ) (n : ℕ),
      queryShadowDom (env.catalogAt 0) sel.results_count.path
        sel.results_count.query = some el →
      parseCount el.text = some (1, c, c) →
      loadAllResults env sel fuel = .ok n → n = 0) := by
  refine ⟨fun el z n hel hbudget hres => ?_,
          fun n j hres hj => ?_,
          fun el c n hel hcount hres => ?_⟩
  · cases hw : env.waitCountOk with
    | error e => rw [loadAllResults, hw] at hres; cases hres
    | ok u =>
      simp only [loadAllResults, hw, hel, hbudget] at hres
      have hn := (Except.ok.injEq _ _).mp hres
      have := clickLoop_num_le env sel z fuel 0
      simp only [Nat.cast_zero, zero_add] at this
      rw [hn] at this
      exact this
  · cases hw : env.waitCountOk with
    | error e => rw [loadAllResults, hw] at hres; cases hres
    | ok u =>
      cases hel : queryShadowDom (env.catalogAt 0) sel.results_count.path
          sel.results_count.query with
      | none =>
        simp only [loadAllResults, hw, hel] at hres
        have hn := (Except.ok.injEq _ _).mp hres
        omega
      | some el =>
        simp only [loadAllResults, hw, hel] at hres
        have hn := (Except.ok.injEq _ _).mp hres
        have := clickLoop_stops_at_missing env sel (clicksNeededOfText el.text)
          j hj fuel 0 (Nat.zero_le j)
        omega
  · cases hw : env.waitCountOk with
    | error e => rw [loadAllResults, hw] at hres; cases hres
    | ok u =>
      simp only [loadAllResults, hw, hel] at hres
      have hn := (Except.ok.injEq _ _).mp hres
      rcases clicksNeeded_full_range el.text c hcount with hb | hb
      · rw [hb] at hn
        have := clickLoop_num_le env sel 0 fuel 0
        simp only [Nat.cast_zero, zero_add] at this
        rw [hn] at this
        simp only [max_self] at this
        omega
      · rw [hb, clickLoop_nan] at hn
        omega

/-- A count element reading `"1 - 2 of 4"` (click budget 1). -/
def countElem24 : Elem := .node { text := "1 - 2 of 4" } none

/-- A count element reading `"1 - 4 of 4"` (fully loaded). -/
def countElemFull : Elem := .node { text := "1 - 4 of 4" } none

/-- A bare "More results" control. -/
def moreBtn : Elem := .node {} none

/-- A catalog whose "More results" control disappears after one click. -/
def catalogPag : ℕ → Elem := fun i =>
  if i = 0 then .node {} (some [("count", countElem24), ("more", moreBtn)])
  else .node {} (some [("count", countElem24)])

def wPageEnvPag : PageEnv := { waitCountOk := .ok (), catalogAt := catalogPag }

/-- A fully loaded catalog that still shows its "More results" control. -/
def catalogFull : Elem :=
  .node {} (some [("count", countElemFull), ("more", moreBtn)])

def wPageEnvFull : PageEnv := { waitCountOk := .ok (), catalogAt := fun _ => catalogFull }

theorem pagination_activation_bounds_witness :
    (queryShadowDom (wPageEnvPag.catalogAt 0) wSelectors.results_count.path
        wSelectors.results_count.query = some countElem24 ∧
      clicksNeededOfText countElem24.text = .num 1 ∧
      loadAllResults wPageEnvPag wSelectors 5 = .ok 1 ∧
      (1 : ℤ) ≤ max 0 1) ∧
    (queryShadowDom (wPageEnvPag.catalogAt 1) wSelectors.more_results_button.path
        wSelectors.more_results_button.query = none ∧
      (1 : ℕ) ≤ 1) ∧
    (parseCount countElemFull.text = some (1, 4, 4) ∧
      loadAllResults wPageEnvFull wSelectors 5 = .ok 0 ∧
      (0 : ℕ) = 0) :=
  ⟨⟨rfl, by decide, rfl,
      (pagination_activation_bounds wPageEnvPag wSelectors 5).1 countElem24 1 1
        rfl (by decide) rfl⟩,
   ⟨rfl,
      (pagination_activation_bounds wPageEnvPag wSelectors 5).2.1 1 1
        rfl rfl⟩,
   ⟨by decide, rfl,
      (pagination_activation_bounds wPageEnvFull wSelectors 5).2.2 countElemFull 4 0
        rfl (by decide) rfl⟩⟩

/-! ## Stage-1 retry policy -/

/-- **C6.** Per dataset, Stage 1 performs at most two card lookups and at
most one pagination pass: a hit on the initial lookup extracts
immediately (one lookup, no pagination); otherwise exactly one pagination
pass and one retry follow, and a continued miss yields a not-found result
rather than further retries. -/
theorem stage1_retry_policy (env : Stage1Env) (source : Src) (fuel : ℕ) :
    ((findAndScrapeUrl env source fuel).2.1 ≤ 2 ∧
     (findAndScrapeUrl env source fuel).2.2 ≤ 1) ∧
    (∀ card, env.gotoOrigin = .ok () → env.catalogWait = .ok () →
      findCardOnPage (env.pageEnv.catalogAt 0) source = some card →
      findAndScrapeUrl env source fuel = (.ok (extractUrlFromCard card source), 1, 0)) ∧
    (env.gotoOrigin = .ok () → env.catalogWait = .ok () →
      env.pageEnv.waitCountOk = .ok () →
      (∀ k, findCardOnPage (env.pageEnv.catalogAt k) source = none) →
      findAndScrapeUrl env source fuel = (.ok none, 2, 1)) := by
  refine ⟨?_, fun card hg hw hc => ?_, fun hg hw hcw hmiss => ?_⟩
  · rw [findAndScrapeUrl]
    repeat' split
    all_goals simp
  · rw [findAndScrapeUrl, hg, hw, hc]
  · rw [findAndScrapeUrl, hg, hw, hmiss 0]
    obtain ⟨k, hk⟩ : ∃ k, loadAllResults env.pageEnv source.selectors fuel = .ok k := by
      rw [loadAllResults, hcw]
      cases queryShadowDom (env.pageEnv.catalogAt 0) source.selectors.results_count.path
          source.selectors.results_count.query with
      | none => exact ⟨0, rfl⟩
      | some el => exact ⟨_, rfl⟩
    rw [hk]
    dsimp only
    rw [hmiss k]

/-- The source descriptor used by concrete runs. -/
def wSrc : Src :=
  { id := "d1", search_term := "D1", origin_url := "http://x/a",
    imported := false, selectors := wSelectors }

/-- A Stage-1 environment whose catalog never exposes the target card. -/
def wStage1Miss : Stage1Env :=
  { gotoOrigin := .ok (), catalogWait := .ok (), pageEnv := wPageEnvNoMatch }

/-- The card's link element. -/
def cardLink : Elem := .node { href := "http://details/1" } none

/-- A card exposing its link under the `card_url` locator. -/
def cardElem : Elem := .node {} (some [("a.link", cardLink)])

/-- A catalog exposing the target card immediately. -/
def catalogWithCard : Elem :=
  .node {} (some [("card-D1", cardElem), ("count", countElemFull)])

/-- A Stage-1 environment that finds the card on the initial lookup. -/
def wStage1Hit : Stage1Env :=
  { gotoOrigin := .ok (), catalogWait := .ok (),
    pageEnv := { waitCountOk := .ok (), catalogAt := fun _ => catalogWithCard } }

theorem stage1_retry_policy_witness :
    ((findAndScrapeUrl wStage1Miss wSrc 3).2.1 ≤ 2 ∧
     (findAndScrapeUrl wStage1Miss wSrc 3).2.2 ≤ 1) ∧
    findCardOnPage (wStage1Hit.pageEnv.catalogAt 0) wSrc = some cardElem ∧
    findAndScrapeUrl wStage1Hit wSrc 3 = (.ok (some "http://details/1"), 1, 0) ∧
    findAndScrapeUrl wStage1Miss wSrc 3 = (.ok none, 2, 1) :=
  ⟨(stage1_retry_policy wStage1Miss wSrc 3).1,
   rfl,
   (stage1_retry_policy wStage1Hit wSrc 3).2.1 cardElem rfl rfl rfl,
   (stage1_retry_policy wStage1Miss wSrc 3).2.2 rfl rfl rfl (fun _ => rfl)⟩

/-! ## Details-page extraction contract -/

/-- **C3.** On a successfully resolved details page: when the primary
API-resources panel yields an input whose (collected) value contains the
match token, the extractor returns exactly the first such value; when the
primary strategy finds no match (or fails) but the fallback data-source
link resolves, it returns that link's URL; and when neither strategy
yields anything it returns not-found without throwing. -/
theorem details_extractor_contract (env : DetailsEnv) (sel : Selectors) :
    (∀ (inputs : List InputWidget) (d : String × String),
      env.gotoDetails = .ok () → exploreStep env = .ok () →
      env.apiButtonWait = .ok () → env.apiButtonClick = .ok () →
      env.apiContainerWait = .ok () → env.candidateInputs = .ok inputs →
      (inputs.map collectData).find?
        (fun p => jsIncludes p.2 sel.details_page.api_input_value_match) = some d →
      scrapeApiUrlFromDetailsPage env sel = .ok (some d.2)) ∧
    (∀ h : String,
      env.gotoDetails = .ok () → exploreStep env = .ok () →
      (primaryStrategy env sel.details_page = .ok none ∨
        ∃ e, primaryStrategy env sel.details_page = .error e) →
      env.fallbackLink = .ok true → env.fallbackHref = .ok h →
      scrapeApiUrlFromDetailsPage env sel = .ok (some h)) ∧
    (env.gotoDetails = .ok () → exploreStep env = .ok () →
      primaryStrategy env sel.details_page = .ok none →
      env.fallbackLink = .ok false →
      scrapeApiUrlFromDetailsPage env sel = .ok none) := by
  refine ⟨fun inputs d hgoto hexp hab habc hacw hin hfind => ?_,
          fun h hgoto hexp hprim hfbl hfbh => ?_,
          fun hgoto hexp hprim hfbl => ?_⟩
  · have hprim : primaryStrategy env sel.details_page = .ok (some d.2) := by
      rw [primaryStrategy]
      rw [hab, hacw, habc, hin]
      dsimp only [Bind.bind, Except.bind, Pure.pure, Except.pure]
      rw [hfind]
      rfl
    rw [scrapeApiUrlFromDetailsPage, hgoto, hexp, hprim]
  · rcases hprim with hprim | ⟨e, hprim⟩ <;>
      rw [scrapeApiUrlFromDetailsPage, hgoto, hexp, hprim] <;>
      dsimp only <;>
      rw [hfbl, hfbh]
  · rw [scrapeApiUrlFromDetailsPage, hgoto, hexp, hprim]
    dsimp only
    rw [hfbl]

/-- A details environment whose primary panel holds a matching input. -/
def wDetailsPrimary : DetailsEnv :=
  { gotoDetails := .ok (), landedUrl := "http://details/1"
    infoButtonWait := .ok (), infoButtonClassName := .ok "", infoClick := .ok ()
    detailsLinkWait := .ok (), detailsLinkClick := .ok ()
    apiButtonWait := .ok (), apiButtonClick := .ok (), apiContainerWait := .ok ()
    candidateInputs := .ok
      [⟨some "Label A", some "http://api/1.csv"⟩,
       ⟨some "Label B", some "http://api/1.geojson"⟩]
    fallbackLink := .ok false, fallbackHref := .ok "" }

/-- A details environment with no matching input but a fallback link. -/
def wDetailsFallback : DetailsEnv :=
  { wDetailsPrimary with
    candidateInputs := .ok [⟨some "Label A", some "http://api/1.csv"⟩]
    fallbackLink := .ok true, fallbackHref := .ok "http://api/fallback" }

/-- A details environment with neither a matching input nor a fallback. -/
def wDetailsNone : DetailsEnv :=
  { wDetailsPrimary with candidateInputs := .ok [] }

theorem details_extractor_contract_witness :
    (((.ok [⟨some "Label A", some "http://api/1.csv"⟩,
        ⟨some "Label B", some "http://api/1.geojson"⟩] :
          Except JsError (List InputWidget)) = wDetailsPrimary.candidateInputs) ∧
      scrapeApiUrlFromDetailsPage wDetailsPrimary wSelectors =
        .ok (some "http://api/1.geojson")) ∧
    (primaryStrategy wDetailsFallback wSelectors.details_page = .ok none ∧
      scrapeApiUrlFromDetailsPage wDetailsFallback wSelectors =
        .ok (some "http://api/fallback")) ∧
    (primaryStrategy wDetailsNone wSelectors.details_page = .ok none ∧
      scrapeApiUrlFromDetailsPage wDetailsNone wSelectors = .ok none) :=
  ⟨⟨rfl,
      (details_extractor_contract wDetailsPrimary wSelectors).1
        [⟨some "Label A", some "http://api/1.csv"⟩,
         ⟨some "Label B", some "http://api/1.geojson"⟩]
        ("Label B", "http://api/1.geojson")
        rfl rfl rfl rfl rfl rfl (by decide)⟩,
   ⟨rfl,
      (details_extractor_contract wDetailsFallback wSelectors).2.1
        "http://api/fallback" rfl rfl (Or.inl rfl) rfl rfl⟩,
   ⟨rfl,
      (details_extractor_contract wDetailsNone wSelectors).2.2
        rfl rfl rfl rfl⟩⟩

/-! ## Batch failure semantics -/

/-- A second descriptor, used to observe whether the batch continues
past a failing first one. -/
def wSrc2 : Src :=
  { id := "d2", search_term := "D2", origin_url := "http://x/b",
    imported := false, selectors := wSelectors }

/-- A details environment whose initial navigation throws (timeout). -/
def cxDetailsThrow : DetailsEnv :=
  { wDetailsPrimary with gotoDetails := .error .timeout }

def cxDatasetEnv : DatasetEnv := { s1 := wStage1Hit, det := cxDetailsThrow }

/-- Two healthy descriptors, but the first one's details navigation
times out. -/
def cxMainEnv : MainEnv :=
  { configLoad := .ok [wSrc, wSrc2], launch := fun _ => .ok (),
    denv := fun _ => cxDatasetEnv }

/-- **C1 counterexample.** With the configuration loaded and every
browser session acquired successfully, a navigation timeout on the first
dataset's details page escapes the extractor (its `page.goto` stands
before the `try`), lands in `main`'s single loop-enclosing catch, and
aborts the batch: the second descriptor is never attempted. -/
theorem batch_abort_counterexample :
    cxMainEnv.configLoad = .ok [wSrc, wSrc2] ∧
    (∀ i, cxMainEnv.launch i = .ok ()) ∧
    (findAndScrapeUrl (cxMainEnv.denv 0).s1 wSrc 3).1 = .ok (some "http://details/1") ∧
    scrapeApiUrlFromDetailsPage (cxMainEnv.denv 0).det wSrc.selectors = .error .timeout ∧
    mainRun cxMainEnv 3 = ⟨["d1"], [], true⟩ ∧
    "d2" ∉ (mainRun cxMainEnv 3).attempted :=
  ⟨rfl, fun _ => rfl, rfl, rfl, rfl, by decide⟩

/-- Helper: when no per-dataset operation throws, the batch loop visits
every descriptor, attempting exactly the non-imported ones. -/
theorem mainLoop_completes (env : MainEnv) (fuel : ℕ) :
    ∀ (sources : List Src) (i : ℕ),
    (∀ j, env.launch j = .ok ()) →
    (∀ j s, s ∈ sources → ∀ e, (findAndScrapeUrl (env.denv j).s1 s fuel).1 ≠ .error e) →
    (∀ j s, s ∈ sources → ∀ e,
      scrapeApiUrlFromDetailsPage (env.denv j).det s.selectors ≠ .error e) →
    (mainLoop env fuel sources i).aborted = false ∧
    (mainLoop env fuel sources i).attempted =
      (sources.filter (fun s => !s.imported)).map Src.id := by
  intro sources
  induction sources with
  | nil => intro i _ _ _; exact ⟨rfl, rfl⟩
  | cons s rest ih =>
    intro i hl hs1 hs2
    have hrec := ih (i + 1) hl
      (fun j t ht => hs1 j t (List.mem_cons_of_mem s ht))
      (fun j t ht => hs2 j t (List.mem_cons_of_mem s ht))
    by_cases him : s.imported = true
    · rw [mainLoop, if_pos him]
      refine ⟨hrec.1, ?_⟩
      rw [hrec.2]
      simp [List.filter_cons, him]
    · have hmem : s ∈ s :: rest := List.mem_cons_self s rest
      have hfilter : (s :: rest).filter (fun t => !t.imported) =
          s :: rest.filter (fun t => !t.imported) := by
        simp [List.filter_cons, him]
      rw [mainLoop, if_neg him, hl i]
      dsimp only
      cases h1 : (findAndScrapeUrl (env.denv i).s1 s fuel).1 with
      | error e => exact absurd h1 (hs1 i s hmem e)
      | ok du =>
        dsimp only
        cases du with
        | none => exact ⟨hrec.1, by rw [hfilter]; simp [hrec.2]⟩
        | some u =>
          dsimp only
          by_cases hu : u = ""
          · rw [if_pos hu]
            exact ⟨hrec.1, by rw [hfilter]; simp [hrec.2]⟩
          · rw [if_neg hu]
            cases h2 : scrapeApiUrlFromDetailsPage (env.denv i).det s.selectors with
            | error e => exact absurd h2 (hs2 i s hmem e)
            | ok au =>
              dsimp only
              cases au with
              | none => exact ⟨hrec.1, by rw [hfilter]; simp [hrec.2]⟩
              | some api =>
                dsimp only
                by_cases ha : api = ""
                · rw [if_pos ha]
                  exact ⟨hrec.1, by rw [hfilter]; simp [hrec.2]⟩
                · rw [if_neg ha]
                  exact ⟨hrec.1, by rw [hfilter]; simp [hrec.2]⟩

/-- **C1 (amended).** Dataset failures signalled by a *value* (a
not-found at either stage) are per-dataset and non-fatal: with no thrown
exception anywhere, the loop attempts every non-imported descriptor and
completes.  The Details-Page Extractor converts every exception raised
inside its top-level try-scope into a not-found result — its only
escaping exceptions are a failure of the initial details-page navigation
(which stands before the try) and a rejection while reading the fallback
link's URL (returned without await); any exception escaping a dataset's
processing aborts the entire batch (see the counterexample). -/
theorem batch_failure_semantics :
    (∀ (env : DetailsEnv) (sel : Selectors) (e : JsError),
      scrapeApiUrlFromDetailsPage env sel = .error e →
      env.gotoDetails = .error e ∨ env.fallbackHref = .error e) ∧
    (∀ (menv : MainEnv) (fuel : ℕ) (sources : List Src),
      menv.configLoad = .ok sources →
      (∀ j, menv.launch j = .ok ()) →
      (∀ j s, s ∈ sources → ∀ e,
        (findAndScrapeUrl (menv.denv j).s1 s fuel).1 ≠ .error e) →
      (∀ j s, s ∈ sources → ∀ e,
        scrapeApiUrlFromDetailsPage (menv.denv j).det s.selectors ≠ .error e) →
      (mainRun menv fuel).aborted = false ∧
      (mainRun menv fuel).attempted =
        (sources.filter (fun s => !s.imported)).map Src.id) := by
  constructor
  · intro env sel e h
    rw [scrapeApiUrlFromDetailsPage] at h
    cases hg : env.gotoDetails with
    | error e2 =>
      rw [hg] at h
      dsimp only at h
      injection h with he
      exact Or.inl (by rw [he])
    | ok u =>
      rw [hg] at h
      cases hexp : exploreStep env with
      | error e2 => rw [hexp] at h; cases h
      | ok u2 =>
        rw [hexp] at h
        dsimp only at h
        cases hp : primaryStrategy env sel.details_page with
        | ok pv =>
          rw [hp] at h
          cases pv with
          | some v => cases h
          | none =>
            dsimp only at h
            cases hf : env.fallbackLink with
            | error e2 => rw [hf] at h; cases h
            | ok present =>
              rw [hf] at h
              cases present with
              | false => cases h
              | true =>
                dsimp only at h
                cases hh : env.fallbackHref with
                | error e2 =>
                  rw [hh] at h
                  dsimp only at h
                  injection h with he
                  exact Or.inr (by rw [he])
                | ok v => rw [hh] at h; cases h
        | error pe =>
          rw [hp] at h
          dsimp only at h
          cases hf : env.fallbackLink with
          | error e2 => rw [hf] at h; cases h
          | ok present =>
            rw [hf] at h
            cases present with
            | false => cases h
            | true =>
              dsimp only at h
              cases hh : env.fallbackHref with
              | error e2 =>
                rw [hh] at h
                dsimp only at h
                injection h with he
                exact Or.inr (by rw [he])
              | ok v => rw [hh] at h; cases h
  · intro menv fuel sources hcfg hl hs1 hs2
    rw [mainRun, hcfg]
    exact mainLoop_completes menv fuel sources 0 hl hs1 hs2

/-- A batch environment where the first dataset misses at Stage 1 and the
second finds nothing at Stage 2 — only value-signalled failures. -/
def wMainEnvOk : MainEnv :=
  { configLoad := .ok [wSrc, wSrc2], launch := fun _ => .ok (),
    denv := fun _ => { s1 := wStage1Miss, det := wDetailsNone } }

theorem batch_failure_semantics_witness :
    (scrapeApiUrlFromDetailsPage cxDetailsThrow wSelectors = .error .timeout ∧
      (cxDetailsThrow.gotoDetails = .error .timeout ∨
        cxDetailsThrow.fallbackHref = .error .timeout)) ∧
    ((mainRun wMainEnvOk 3).aborted = false ∧
      (mainRun wMainEnvOk 3).attempted =
        (([wSrc, wSrc2].filter (fun s => !s.imported)).map Src.id)) :=
  ⟨⟨rfl, batch_failure_semantics.1 cxDetailsThrow wSelectors .timeout rfl⟩,
   batch_failure_semantics.2 wMainEnvOk 3 [wSrc, wSrc2] rfl (fun _ => rfl)
     (by
       intro j s hs e h
       rcases hs with _ | ⟨_, hs⟩
       · exact Except.noConfusion (rfl.trans h :
           (Except.ok (Option.none) : Except JsError (Option String)) = .error e)
       · rcases hs with _ | ⟨_, hs⟩
         · exact Except.noConfusion (rfl.trans h :
             (Except.ok (Option.none) : Except JsError (Option String)) = .error e)
         · cases hs)
     (by
       intro j s hs e h
       rcases hs with _ | ⟨_, hs⟩
       · exact Except.noConfusion (rfl.trans h :
           (Except.ok (Option.none) : Except JsError (Option String)) = .error e)
       · rcases hs with _ | ⟨_, hs⟩
         · exact Except.noConfusion (rfl.trans h :
             (Except.ok (Option.none) : Except JsError (Option String)) = .error e)
         · cases hs)⟩

/-! ## Object-model lemmas -/

/-- Reading the head entry of an object. -/
theorem getKey_cons (k0 : String) (v0 : Val) (rest : Obj) (k : String) :
    getKey ((k0, v0) :: rest) k = if k0 = k then some v0 else getKey rest k := by
  by_cases h : k0 = k
  · subst h
    rw [getKey, List.find?_cons_of_pos _ (by simp), if_pos rfl]
    rfl
  · rw [getKey, List.find?_cons_of_neg _ (by simpa using h), if_neg h, getKey]

/-- Reading back a property write. -/
theorem getKey_setKey (o : Obj) (k : String) (v : Val) (k2 : String) :
    getKey (setKey o k v) k2 = if k2 = k then some v else getKey o k2 := by
  induction o with
  | nil =>
    rw [setKey, getKey_cons]
    by_cases h : k2 = k
    · rw [if_pos h.symm, if_pos h]
    · rw [if_neg (fun hh => h hh.symm), if_neg h]
  | cons p rest ih =>
    obtain ⟨k0, v0⟩ := p
    rw [setKey]
    by_cases h0 : k0 = k
    · subst h0
      rw [if_pos rfl, getKey_cons, getKey_cons]
      by_cases h : k0 = k2
      · subst h
        rw [if_pos rfl, if_pos rfl]
      · rw [if_neg h, if_neg h, if_neg (fun hh => h hh.symm)]
    · rw [if_neg h0, getKey_cons, getKey_cons, ih]
      by_cases h : k0 = k2
      · subst h
        rw [if_pos rfl, if_neg h0, if_pos rfl]
      · rw [if_neg h, if_neg h]

/-- A key absent from an object reads as `undefined`. -/
theorem getKey_eq_none (o : Obj) (k : String) :
    getKey o k = none ↔ k ∉ o.map Prod.fst := by
  induction o with
  | nil => simp [getKey]
  | cons p rest ih =>
    obtain ⟨k0, v0⟩ := p
    rw [getKey_cons]
    by_cases h : k0 = k
    · subst h; simp
    · simp [if_neg h, ih, Ne.symm h]

/-- Spreading an object that lacks `k` does not change `k`'s value. -/
theorem getKey_spread_of_absent (src : Obj) (k : String)
    (h : getKey src k = none) :
    ∀ o : Obj, getKey (spread o src) k = getKey o k := by
  induction src with
  | nil => intro o; rfl
  | cons p rest ih =>
    obtain ⟨k1, v1⟩ := p
    intro o
    have hk1 : k1 ≠ k := by
      intro he
      subst he
      rw [getKey_cons, if_pos rfl] at h
      cases h
    have hrest : getKey rest k = none := by
      rwa [getKey_cons, if_neg hk1] at h
    show getKey (spread (setKey o k1 v1) rest) k = getKey o k
    rw [ih hrest, getKey_setKey, if_neg (Ne.symm hk1)]

/-- Spreading an object with unique keys writes each of its values. -/
theorem getKey_spread_of_mem (src : Obj) (k : String) (v : Val)
    (hnd : (src.map Prod.fst).Nodup) (h : getKey src k = some v) :
    ∀ o : Obj, getKey (spread o src) k = some v := by
  induction src with
  | nil => intro o; simp [getKey] at h
  | cons p rest ih =>
    obtain ⟨k1, v1⟩ := p
    intro o
    by_cases hk1 : k1 = k
    · subst hk1
      have hv : v1 = v := by
        rw [getKey_cons, if_pos rfl] at h
        exact Option.some.inj h
      subst hv
      have habs : getKey rest k1 = none := by
        rw [getKey_eq_none]
        exact (List.nodup_cons.mp (by simpa using hnd)).1
      show getKey (spread (setKey o k1 v1) rest) k1 = some v1
      rw [getKey_spread_of_absent rest k1 habs, getKey_setKey, if_pos rfl]
    · have hrest : getKey rest k = some v := by
        rwa [getKey_cons, if_neg hk1] at h
      show getKey (spread (setKey o k1 v1) rest) k = some v
      exact ih (by simpa using (List.nodup_cons.mp (by simpa using hnd)).2) hrest
        (setKey o k1 v1)

/-! ## Flattening -/

/-- The definition-level locator bag carried by the base configuration. -/
def wLocatorBag : Val :=
  .obj [("gallery_card", .obj [("query", .str "card")])]

def wBaseConfig : Obj :=
  [("base_search_url", .str "http://x/"), ("selectors", wLocatorBag)]

def wDataset1 : Obj := [("id", .str "d1"), ("search_term", .str "Dams")]

def wDataset2 : Obj := [("id", .str "d2"), ("search_term", .str "Mines")]

/-- One definition, categories `"a"` and `"b"`, one dataset each. -/
def wConfig : Config :=
  { base_config := some wBaseConfig
    source_definitions :=
      [{ name := .str "NY GIS"
         categories :=
          [{ category := "a", datasets := [wDataset1] },
           { category := "b", datasets := [wDataset2] }] }] }

/-- **C7.** Flattening the two-category configuration yields exactly two
records, with origin URLs `"http://x/a"` and `"http://x/b"`, each
carrying the locator bag from the configuration together with its own
dataset's `id` and `search_term`. -/
theorem flattening_concrete :
    (processSourceDefinitions wConfig).length = 2 ∧
    (processSourceDefinitions wConfig).map (fun r => getKey r "origin_url") =
      [some (.str "http://x/a"), some (.str "http://x/b")] ∧
    (processSourceDefinitions wConfig).map (fun r => getKey r "selectors") =
      [some wLocatorBag, some wLocatorBag] ∧
    (processSourceDefinitions wConfig).map (fun r => getKey r "id") =
      [some (.str "d1"), some (.str "d2")] ∧
    (processSourceDefinitions wConfig).map (fun r => getKey r "search_term") =
      [some (.str "Dams"), some (.str "Mines")] :=
  ⟨rfl, rfl, rfl, rfl, rfl⟩

/-- **C10.** Every flattened record is a `flattenRecord`, whose
`origin_url` is the derived base-URL-plus-category value even when the
dataset record itself carries an `origin_url` key (the derived value is
written after the dataset spread); for every other key present in the
dataset record, the dataset's value wins in the flattened record. -/
theorem flatten_origin_override :
    (∀ (config : Config) (r : Obj), r ∈ processSourceDefinitions config →
      ∃ defn cat dataset, defn ∈ config.source_definitions ∧
        cat ∈ defn.categories ∧ dataset ∈ cat.datasets ∧
        r = flattenRecord (config.base_config.getD []) defn.name cat dataset) ∧
    (∀ (baseConfig : Obj) (defnName : Val) (cat : Category) (dataset : Obj),
      getKey (flattenRecord baseConfig defnName cat dataset) "origin_url" =
        some (.str (originUrlOf baseConfig cat.category))) ∧
    (∀ (baseConfig : Obj) (defnName : Val) (cat : Category) (dataset : Obj)
       (k : String) (v : Val),
      k ≠ "origin_url" →
      (dataset.map Prod.fst).Nodup →
      getKey dataset k = some v →
      getKey (flattenRecord baseConfig defnName cat dataset) k = some v) := by
  refine ⟨fun config r hr => ?_, fun baseConfig defnName cat dataset => ?_,
    fun baseConfig defnName cat dataset k v hk hnd hv => ?_⟩
  · rw [processSourceDefinitions] at hr
    simp only [List.mem_flatMap, List.mem_map] at hr
    obtain ⟨defn, hdefn, cat, hcat, dataset, hdataset, hrec⟩ := hr
    exact ⟨defn, cat, dataset, hdefn, hcat, hdataset, hrec.symm⟩
  · rw [flattenRecord, getKey_setKey, if_pos rfl]
  · rw [flattenRecord, getKey_setKey, if_neg hk]
    exact getKey_spread_of_mem dataset k v hnd hv _

/-- A dataset record that itself carries an `origin_url` key. -/
def wDatasetClash : Obj :=
  [("id", .str "d9"), ("origin_url", .str "http://evil"), ("foo", .str "bar")]

def wCatClash : Category := { category := "c", datasets := [wDatasetClash] }

theorem flatten_origin_override_witness :
    ((processSourceDefinitions wConfig).head? = some
        (flattenRecord wBaseConfig (.str "NY GIS")
          { category := "a", datasets := [wDataset1] } wDataset1) ∧
      (∃ defn cat dataset, defn ∈ wConfig.source_definitions ∧
        cat ∈ defn.categories ∧ dataset ∈ cat.datasets ∧
        (flattenRecord wBaseConfig (.str "NY GIS")
            { category := "a", datasets := [wDataset1] } wDataset1) =
          flattenRecord (wConfig.base_config.getD []) defn.name cat dataset)) ∧
    getKey (flattenRecord wBaseConfig (.str "N") wCatClash wDatasetClash)
      "origin_url" = some (.str "http://x/c") ∧
    ("foo" ≠ "origin_url" ∧ (wDatasetClash.map Prod.fst).Nodup ∧
      getKey wDatasetClash "foo" = some (.str "bar") ∧
      getKey (flattenRecord wBaseConfig (.str "N") wCatClash wDatasetClash)
        "foo" = some (.str "bar")) :=
  ⟨⟨rfl,
      flatten_origin_override.1 wConfig
        (flattenRecord wBaseConfig (.str "NY GIS")
          { category := "a", datasets := [wDataset1] } wDataset1)
        (List.mem_cons_self _ _)⟩,
   flatten_origin_override.2.1 wBaseConfig (.str "N") wCatClash wDatasetClash,
   ⟨by decide, by decide, rfl,
      flatten_origin_override.2.2 wBaseConfig (.str "N") wCatClash wDatasetClash
        "foo" (.str "bar") (by decide) (by decide) rfl⟩⟩

/-! ## Persistence write-back -/

/-- A category list with no matching dataset is returned unchanged. -/
theorem updateDatasets_of_none (datasetId apiUrl : String) :
    ∀ ds : List Obj, (∀ d ∈ ds, idMatches d datasetId = false) →
      updateDatasets datasetId apiUrl ds = (ds, false) := by
  intro ds
  induction ds with
  | nil => intro _; rfl
  | cons d rest ih =>
    intro h
    rw [updateDatasets, if_neg (by simp [h d (List.mem_cons_self d rest)]),
      ih (fun x hx => h x (List.mem_cons_of_mem d hx))]

/-- `find`-and-mutate rewrites exactly the first matching dataset. -/
theorem updateDatasets_found (datasetId apiUrl : String) (d : Obj)
    (hd : idMatches d datasetId = true) :
    ∀ (pre post : List Obj), (∀ x ∈ pre, idMatches x datasetId = false) →
      updateDatasets datasetId apiUrl (pre ++ d :: post) =
        (pre ++ updateDatasetObj d apiUrl :: post, true) := by
  intro pre
  induction pre with
  | nil =>
    intro post _
    rw [List.nil_append, List.nil_append, updateDatasets, if_pos hd]
  | cons x pre ih =>
    intro post h
    rw [List.cons_append, updateDatasets,
      if_neg (by simp [h x (List.mem_cons_self x pre)]),
      ih post (fun y hy => h y (List.mem_cons_of_mem x hy)), List.cons_append]

/-- The category loop leaves a fully unmatched list unchanged. -/
theorem updateCategories_of_none (datasetId apiUrl : String) :
    ∀ cs : List Category,
      (∀ c ∈ cs, ∀ d ∈ c.datasets, idMatches d datasetId = false) →
      updateCategories datasetId apiUrl cs = (cs, false) := by
  intro cs
  induction cs with
  | nil => intro _; rfl
  | cons c rest ih =>
    intro h
    rw [updateCategories,
      updateDatasets_of_none datasetId apiUrl c.datasets (h c (List.mem_cons_self c rest))]
    dsimp only
    rw [if_neg Bool.false_ne_true,
      ih (fun y hy => h y (List.mem_cons_of_mem c hy))]

/-- The category loop with `break`: the first category containing a match
gets its first matching dataset rewritten; everything else is untouched. -/
theorem updateCategories_found (datasetId apiUrl : String)
    (cat : Category) (dsPre dsPost : List Obj) (d : Obj)
    (hcat : cat.datasets = dsPre ++ d :: dsPost)
    (hpre : ∀ x ∈ dsPre, idMatches x datasetId = false)
    (hd : idMatches d datasetId = true) :
    ∀ (csPre csPost : List Category),
      (∀ c ∈ csPre, ∀ x ∈ c.datasets, idMatches x datasetId = false) →
      updateCategories datasetId apiUrl (csPre ++ cat :: csPost) =
        (csPre ++ { cat with datasets :=
          dsPre ++ updateDatasetObj d apiUrl :: dsPost } :: csPost, true) := by
  intro csPre
  induction csPre with
  | nil =>
    intro csPost _
    rw [List.nil_append, updateCategories, hcat,
      updateDatasets_found datasetId apiUrl d hd dsPre dsPost hpre]
    dsimp only
    rw [if_pos rfl, List.nil_append]
  | cons c csRest ih =>
    intro csPost h
    rw [List.cons_append, updateCategories,
      updateDatasets_of_none datasetId apiUrl c.datasets
        (h c (List.mem_cons_self c csRest))]
    dsimp only
    rw [if_neg Bool.false_ne_true,
      ih csPost (fun y hy => h y (List.mem_cons_of_mem c hy)), List.cons_append]

/-- The definition loop with `break`, same shape one level up. -/
theorem updateDefinitions_of_none (datasetId apiUrl : String) :
    ∀ ds : List SourceDefinition,
      (∀ dd ∈ ds, ∀ c ∈ dd.categories, ∀ x ∈ c.datasets,
        idMatches x datasetId = false) →
      updateDefinitions datasetId apiUrl ds = (ds, false) := by
  intro ds
  induction ds with
  | nil => intro _; rfl
  | cons dd rest ih =>
    intro h
    rw [updateDefinitions,
      updateCategories_of_none datasetId apiUrl dd.categories
        (h dd (List.mem_cons_self dd rest))]
    dsimp only
    rw [if_neg Bool.false_ne_true,
      ih (fun y hy => h y (List.mem_cons_of_mem dd hy))]

theorem updateDefinitions_found (datasetId apiUrl : String)
    (defn : SourceDefinition) (catsPre catsPost : List Category) (cat : Category)
    (dsPre dsPost : List Obj) (d : Obj)
    (hdefn : defn.categories = catsPre ++ cat :: catsPost)
    (hcats : ∀ cc ∈ catsPre, ∀ x ∈ cc.datasets, idMatches x datasetId = false)
    (hpre : ∀ x ∈ dsPre, idMatches x datasetId = false)
    (hcat : cat.datasets = dsPre ++ d :: dsPost)
    (hd : idMatches d datasetId = true) :
    ∀ (defsPre defsPost : List SourceDefinition),
      (∀ dd ∈ defsPre, ∀ cc ∈ dd.categories, ∀ x ∈ cc.datasets,
        idMatches x datasetId = false) →
      updateDefinitions datasetId apiUrl (defsPre ++ defn :: defsPost) =
        (defsPre ++ { defn with categories :=
          catsPre ++ { cat with datasets :=
            dsPre ++ updateDatasetObj d apiUrl :: dsPost } :: catsPost } :: defsPost,
          true) := by
  intro defsPre
  induction defsPre with
  | nil =>
    intro defsPost _
    rw [List.nil_append, updateDefinitions, hdefn,
      updateCategories_found datasetId apiUrl cat dsPre dsPost d hcat hpre hd
        catsPre catsPost hcats]
    dsimp only
    rw [if_pos rfl, List.nil_append]
  | cons dd defsRest ih =>
    intro defsPost h
    rw [List.cons_append, updateDefinitions,
      updateCategories_of_none datasetId apiUrl dd.categories
        (h dd (List.mem_cons_self dd defsRest))]
    dsimp only
    rw [if_neg Bool.false_ne_true,
      ih defsPost (fun y hy => h y (List.mem_cons_of_mem dd hy)), List.cons_append]

/-- **C8.** With an identifier absent from the configuration, the writer
performs no mutation (and only warns); with a present identifier, exactly
the first matching dataset is rewritten — its `scraped_url` set to the
given URL and `imported` to `true`, every other key of that record and
every other dataset and the surrounding structure unchanged. -/
theorem persistence_writeback (config : Config) (datasetId apiUrl : String) :
    ((∀ defn ∈ config.source_definitions, ∀ cat ∈ defn.categories,
        ∀ d ∈ cat.datasets, idMatches d datasetId = false) →
      saveUrlToJson config datasetId apiUrl = (config, false)) ∧
    (∀ (defsPre defsPost : List SourceDefinition) (defn : SourceDefinition)
       (catsPre catsPost : List Category) (cat : Category)
       (dsPre dsPost : List Obj) (d : Obj),
      config.source_definitions = defsPre ++ defn :: defsPost →
      defn.categories = catsPre ++ cat :: catsPost →
      cat.datasets = dsPre ++ d :: dsPost →
      (∀ dd ∈ defsPre, ∀ cc ∈ dd.categories, ∀ x ∈ cc.datasets,
        idMatches x datasetId = false) →
      (∀ cc ∈ catsPre, ∀ x ∈ cc.datasets, idMatches x datasetId = false) →
      (∀ x ∈ dsPre, idMatches x datasetId = false) →
      idMatches d datasetId = true →
      saveUrlToJson config datasetId apiUrl =
        ({ config with source_definitions :=
            defsPre ++ { defn with categories :=
              catsPre ++ { cat with datasets :=
                dsPre ++ updateDatasetObj d apiUrl :: dsPost } :: catsPost } :: defsPost },
          true)) ∧
    (∀ (dd : Obj) (url k : String),
      getKey (updateDatasetObj dd url) k =
        if k = "imported" then some (.boolVal true)
        else if k = "scraped_url" then some (.str url)
        else getKey dd k) := by
  refine ⟨fun h => ?_, ?_, fun dd url k => ?_⟩
  · rw [saveUrlToJson, updateDefinitions_of_none datasetId apiUrl
      config.source_definitions h]
    dsimp only
    rw [if_neg Bool.false_ne_true]
  · intro defsPre defsPost defn catsPre catsPost cat dsPre dsPost d
      hdefs hdefn hcat hdefsPre hcatsPre hdsPre hd
    rw [saveUrlToJson, hdefs,
      updateDefinitions_found datasetId apiUrl defn catsPre catsPost cat
        dsPre dsPost d hdefn hcatsPre hdsPre hcat hd defsPre defsPost hdefsPre]
    dsimp only
    rw [if_pos rfl]
  · rw [updateDatasetObj, getKey_setKey, getKey_setKey]

/-- The expected post-write configuration for the concrete run below. -/
def wConfigAfter : Config :=
  { wConfig with source_definitions :=
      [{ name := .str "NY GIS"
         categories :=
          [{ category := "a", datasets := [wDataset1] },
           { category := "b",
             datasets := [updateDatasetObj wDataset2 "http://api/d2"] }] }] }

theorem persistence_writeback_witness :
    (saveUrlToJson wConfig "zz" "u" = (wConfig, false)) ∧
    (idMatches wDataset2 "d2" = true ∧
      saveUrlToJson wConfig "d2" "http://api/d2" = (wConfigAfter, true)) ∧
    (getKey (updateDatasetObj wDataset2 "http://api/d2") "scraped_url" =
        some (.str "http://api/d2") ∧
      getKey (updateDatasetObj wDataset2 "http://api/d2") "imported" =
        some (.boolVal true) ∧
      getKey (updateDatasetObj wDataset2 "http://api/d2") "id" =
        some (.str "d2")) :=
  ⟨(persistence_writeback wConfig "zz" "u").1 (by decide),
   ⟨rfl,
      (persistence_writeback wConfig "d2" "http://api/d2").2.1
        [] []
        { name := .str "NY GIS"
          categories :=
            [{ category := "a", datasets := [wDataset1] },
             { category := "b", datasets := [wDataset2] }] }
        [{ category := "a", datasets := [wDataset1] }] []
        { category := "b", datasets := [wDataset2] }
        [] [] wDataset2
        rfl rfl rfl
        (by intro dd h; cases h)
        (by decide)
        (by intro x h; cases h)
        rfl⟩,
   ⟨((persistence_writeback wConfig "d2" "http://api/d2").2.2 wDataset2
        "http://api/d2" "scraped_url").trans rfl,
     ((persistence_writeback wConfig "d2" "http://api/d2").2.2 wDataset2
        "http://api/d2" "imported").trans rfl,
     ((persistence_writeback wConfig "d2" "http://api/d2").2.2 wDataset2
        "http://api/d2" "id").trans rfl⟩⟩

end GisScraper
